import Mathlib

set_option maxHeartbeats 1000000

/-!
Verification development for the docker-py client library.

The development shallowly embeds the credential-helper subprocess protocol
(`docker/credentials/store.py`) and the Unix-socket transport layer
(`docker/transport/unixconn.py`).  Python library facilities used by that
code (UTF-8 encoding and decoding, `json.loads` and `json.dumps`,
`subprocess.check_output`, `shutil.which`, urllib3's
`RecentlyUsedContainer`, the `requests` `path_url` property and the socket
layer) are embedded as explicit executable models; outcomes of the outside
world (the helper process, the operating system) are oracles supplied as
parameters.
-/

namespace DockerPy

/-! ## Bytes and UTF-8

Python byte strings are modelled as `List Nat` (each entry one byte).
`utf8Encode` models `str.encode('utf-8')`; `utf8Decode` models
`bytes.decode('utf-8')` (strict mode: overlong forms, surrogates and
out-of-range code points are rejected, matching CPython's strict codec). -/

def utf8EncodeChar (c : Char) : List Nat :=
  let n := c.toNat
  if n < 0x80 then [n]
  else if n < 0x800 then [0xC0 + n / 64, 0x80 + n % 64]
  else if n < 0x10000 then [0xE0 + n / 4096, 0x80 + (n / 64) % 64, 0x80 + n % 64]
  else [0xF0 + n / 262144, 0x80 + (n / 4096) % 64, 0x80 + (n / 64) % 64, 0x80 + n % 64]

def utf8Encode (s : String) : List Nat :=
  (s.data.map utf8EncodeChar).flatten

def isCont (b : Nat) : Bool := 0x80 ≤ b && b < 0xC0

/-- Validity of the second byte of a three-byte sequence (excludes overlong
forms for `0xE0` and surrogate code points for `0xED`). -/
def cont3Ok (b0 b1 : Nat) : Bool :=
  if b0 = 0xE0 then 0xA0 ≤ b1 && b1 < 0xC0
  else if b0 = 0xED then 0x80 ≤ b1 && b1 < 0xA0
  else isCont b1

/-- Validity of the second byte of a four-byte sequence (excludes overlong
forms for `0xF0` and code points above `0x10FFFF` for `0xF4`). -/
def cont4Ok (b0 b1 : Nat) : Bool :=
  if b0 = 0xF0 then 0x90 ≤ b1 && b1 < 0xC0
  else if b0 = 0xF4 then 0x80 ≤ b1 && b1 < 0x90
  else isCont b1

def utf8Decode : List Nat → Option (List Char)
  | [] => some []
  | b0 :: r =>
    if b0 < 0x80 then
      (utf8Decode r).map (fun cs => Char.ofNat b0 :: cs)
    else if 0xC2 ≤ b0 && b0 < 0xE0 then
      match r with
      | b1 :: r1 =>
        if isCont b1 then
          (utf8Decode r1).map (fun cs => Char.ofNat ((b0 - 0xC0) * 64 + (b1 - 0x80)) :: cs)
        else none
      | [] => none
    else if 0xE0 ≤ b0 && b0 < 0xF0 then
      match r with
      | b1 :: b2 :: r2 =>
        if cont3Ok b0 b1 && isCont b2 then
          (utf8Decode r2).map (fun cs =>
            Char.ofNat ((b0 - 0xE0) * 4096 + (b1 - 0x80) * 64 + (b2 - 0x80)) :: cs)
        else none
      | _ => none
    else if 0xF0 ≤ b0 && b0 < 0xF5 then
      match r with
      | b1 :: b2 :: b3 :: r3 =>
        if cont4Ok b0 b1 && isCont b2 && isCont b3 then
          (utf8Decode r3).map (fun cs =>
            Char.ofNat ((b0 - 0xF0) * 262144 + (b1 - 0x80) * 4096 +
              (b2 - 0x80) * 64 + (b3 - 0x80)) :: cs)
        else none
      | _ => none
    else none

/-! ## JSON values

Python JSON values as produced by `json.loads`.  Numbers keep their raw
source token (`num`): no claim depends on numeric semantics, and this keeps
floating point out of the model.  A JSON object is a list of fields whose
keys are distinct (the parser resolves duplicate keys the way a Python
`dict` does: the last occurrence wins). -/

inductive Json where
  | str (s : String)
  | num (raw : String)
  | bool (b : Bool)
  | null
  | arr (elems : List Json)
  | obj (fields : List (String × Json))

/-- Python `x == ''` for a JSON value: true exactly for the empty string
(comparison of `''` with numbers, booleans, `None`, lists or dicts is
`False`, never an error). -/
def jsonIsEmptyStr : Json → Bool
  | .str s => s = ""
  | _ => false

/-! ## A JSON parser modelling `json.loads`

The parser covers the JSON subset the credential protocol uses: objects,
arrays, strings with the standard escapes (including `\uXXXX` for
non-surrogate code points; lone surrogates are rejected, a deliberate
narrowing since Lean `Char` cannot hold them), `true`/`false`/`null` and
raw number tokens.  Duplicate object keys resolve to the last occurrence,
as in a Python `dict`. -/

def skipWs : List Char → List Char
  | [] => []
  | c :: r => if c = ' ' || c = '\t' || c = '\n' || c = '\r' then skipWs r else c :: r

def escChar (e : Char) : Option Char :=
  if e = '"' then some '"'
  else if e = '\\' then some '\\'
  else if e = '/' then some '/'
  else if e = 'b' then some (Char.ofNat 8)
  else if e = 'f' then some (Char.ofNat 12)
  else if e = 'n' then some '\n'
  else if e = 'r' then some '\r'
  else if e = 't' then some '\t'
  else none

def hexVal (c : Char) : Option Nat :=
  if '0' ≤ c && c ≤ '9' then some (c.toNat - 48)
  else if 'a' ≤ c && c ≤ 'f' then some (c.toNat - 87)
  else if 'A' ≤ c && c ≤ 'F' then some (c.toNat - 70)
  else none

/-- Parse the body of a JSON string literal, the opening quote already
consumed; returns the decoded string and the input after the closing
quote. -/
def parseStringBody : List Char → Option (String × List Char)
  | [] => none
  | c :: r =>
    if c = '"' then some ("", r)
    else if c = '\\' then
      match r with
      | [] => none
      | e :: r2 =>
        if e = 'u' then
          match r2 with
          | h1 :: h2 :: h3 :: h4 :: r6 =>
            match hexVal h1, hexVal h2, hexVal h3, hexVal h4 with
            | some v1, some v2, some v3, some v4 =>
              let n := v1 * 4096 + v2 * 256 + v3 * 16 + v4
              if 0xD800 ≤ n && n < 0xE000 then none
              else (parseStringBody r6).map (fun p => (String.singleton (Char.ofNat n) ++ p.1, p.2))
            | _, _, _, _ => none
          | _ => none
        else
          match escChar e with
          | some ch => (parseStringBody r2).map (fun p => (String.singleton ch ++ p.1, p.2))
          | none => none
    else if c.toNat < 0x20 then none
    else (parseStringBody r).map (fun p => (String.singleton c ++ p.1, p.2))

def isNumChar (c : Char) : Bool :=
  c.isDigit || c = '-' || c = '+' || c = '.' || c = 'e' || c = 'E'

/-- Resolve a duplicate key the way a Python `dict` built left to right
does: the later fields `fs` win over the earlier pair `(k, v)`. -/
def consField (k : String) (v : Json) (fs : List (String × Json)) : List (String × Json) :=
  if (fs.lookup k).isSome then fs else (k, v) :: fs

mutual

def parseVal : Nat → List Char → Option (Json × List Char)
  | 0, _ => none
  | fuel + 1, s =>
    match skipWs s with
    | [] => none
    | c :: r =>
      if c = '"' then (parseStringBody r).map (fun p => (Json.str p.1, p.2))
      else if c = '\x7b' then (parseMembers fuel r).map (fun p => (Json.obj p.1, p.2))
      else if c = '[' then (parseElems fuel r).map (fun p => (Json.arr p.1, p.2))
      else if c = 't' then
        if "rue".data.isPrefixOf r then some (Json.bool true, r.drop 3) else none
      else if c = 'f' then
        if "alse".data.isPrefixOf r then some (Json.bool false, r.drop 4) else none
      else if c = 'n' then
        if "ull".data.isPrefixOf r then some (Json.null, r.drop 3) else none
      else if c.isDigit || c = '-' then
        some (Json.num (String.mk ((c :: r).takeWhile isNumChar)), (c :: r).dropWhile isNumChar)
      else none

/-- Members of an object, the opening brace already consumed. -/
def parseMembers : Nat → List Char → Option (List (String × Json) × List Char)
  | 0, _ => none
  | fuel + 1, s =>
    match skipWs s with
    | '\x7d' :: r => some ([], r)
    | other => parsePairList fuel other

/-- One or more `"key": value` pairs followed by a closing brace. -/
def parsePairList : Nat → List Char → Option (List (String × Json) × List Char)
  | 0, _ => none
  | fuel + 1, s =>
    match skipWs s with
    | '"' :: r =>
      match parseStringBody r with
      | none => none
      | some (key, r2) =>
        match skipWs r2 with
        | ':' :: r3 =>
          match parseVal fuel r3 with
          | none => none
          | some (v, r4) =>
            match skipWs r4 with
            | ',' :: r5 =>
              (parsePairList fuel r5).map (fun p => (consField key v p.1, p.2))
            | '\x7d' :: r5 => some ([(key, v)], r5)
            | _ => none
        | _ => none
    | _ => none

/-- Elements of an array, the opening bracket already consumed. -/
def parseElems : Nat → List Char → Option (List Json × List Char)
  | 0, _ => none
  | fuel + 1, s =>
    match skipWs s with
    | ']' :: r => some ([], r)
    | other => parseElemList fuel other

def parseElemList : Nat → List Char → Option (List Json × List Char)
  | 0, _ => none
  | fuel + 1, s =>
    match parseVal fuel s with
    | none => none
    | some (v, r) =>
      match skipWs r with
      | ',' :: r2 => (parseElemList fuel r2).map (fun p => (v :: p.1, p.2))
      | ']' :: r2 => some ([v], r2)
      | _ => none

end

/-- Model of `json.loads` on a decoded text: parse one value and require only
whitespace to remain. -/
def json_loads (chars : List Char) : Option Json :=
  match parseVal (2 * chars.length + 4) chars with
  | some (j, rest) => if skipWs rest = [] then some j else none
  | none => none

/-! ## `json.dumps` for the credential record

`Store.store` serializes the Python dict
`dict(ServerURL=server, Username=username, Secret=secret)` with
`json.dumps` at its defaults: insertion order preserved, separators
`', '` and `': '`, `ensure_ascii=True` (characters outside `0x20`–`0x7E`
escaped as `\uXXXX`, astral code points as surrogate pairs, the usual
named escapes). -/

def hexDigit (n : Nat) : Char :=
  if n < 10 then Char.ofNat (48 + n) else Char.ofNat (87 + n)

def hex4 (n : Nat) : String :=
  String.mk [hexDigit (n / 4096 % 16), hexDigit (n / 256 % 16), hexDigit (n / 16 % 16),
    hexDigit (n % 16)]

def jsonEscapeChar (c : Char) : String :=
  if c = '"' then "\\\""
  else if c = '\\' then "\\\\"
  else if c = Char.ofNat 8 then "\\b"
  else if c = Char.ofNat 12 then "\\f"
  else if c = '\n' then "\\n"
  else if c = '\r' then "\\r"
  else if c = '\t' then "\\t"
  else if c.toNat < 0x20 then "\\u" ++ hex4 c.toNat
  else if c.toNat < 0x7F then String.singleton c
  else if c.toNat < 0x10000 then "\\u" ++ hex4 c.toNat
  else
    let v := c.toNat - 0x10000
    "\\u" ++ hex4 (0xD800 + v / 1024) ++ "\\u" ++ hex4 (0xDC00 + v % 1024)

def pyJsonQuote (s : String) : String :=
  "\"" ++ String.join (s.data.map jsonEscapeChar) ++ "\""

/-- Model of `json.dumps` on the three-field dict built in `Store.store`. -/
def json_dumps_cred (server username secret : String) : String :=
  "\x7b\"ServerURL\": " ++ pyJsonQuote server ++
  ", \"Username\": " ++ pyJsonQuote username ++
  ", \"Secret\": " ++ pyJsonQuote secret ++ "\x7d"

/-! ## The credential store (`docker/credentials/store.py`)

Exceptions are one inductive: `storeError` and `credentialsNotFound` embed
the repository's `errors.StoreError` and `errors.CredentialsNotFound`;
`keyError` and `typeError` embed Python's built-in lookup errors;
`unicodeDecodeError` and `jsonDecodeError` embed `bytes.decode` and
`json.loads` failures (both `ValueError` kinds in Python). -/

inductive PyErr where
  | storeError (msg : String)
  | credentialsNotFound (msg : String)
  | keyError (key : String)
  | typeError (msg : String)
  | unicodeDecodeError
  | jsonDecodeError

/-- Outcome of one `subprocess.check_output([exe, subcmd], input=..., env=...)`
call, supplied by the environment: `success` is a zero exit with the given
standard output; `calledProcessError` is a non-zero exit (`code ≠ 0`) with
the captured output; `osError` is an OS-level launch failure. -/
inductive ExecOutcome where
  | success (stdout : List Nat)
  | calledProcessError (code : Int) (output : List Nat)
  | osError (eno : Int) (strerror : String)

/-- Oracle for the external credential-helper process: what one spawn with
the given subcommand and standard input does. -/
structure Helper where
  run : String → Option (List Nat) → ExecOutcome

/-- A record of one attempted process launch (argv is `[exe, subcmd]`, the
bytes are the standard input). -/
structure Launch where
  exe : String
  subcmd : String
  stdinData : Option (List Nat)

def PROGRAM_PREFIX : String := "docker-credential-"

def errnoENOENT : Int := 2

structure Store where
  program : String
  exe : Option String

/-- Embeds `Store.__init__`: `program` is prefixed, then resolved once via
`shutil.which` (the `which` oracle models the executable search path).
The constructor only warns when resolution fails; the failure is kept as
`exe = none`. -/
def Store.init (which : String → Option String) (program : String) : Store :=
  let prog := PROGRAM_PREFIX ++ program
  { program := prog, exe := which prog }

/-- Modelled from the spec: `docker.credentials.errors.process_store_error`
is not under `src/`.  Per the spec, a non-zero helper exit translates via
the helper's textual error convention into a `StoreError` whose message
includes the helper program name and the helper's own output-derived
message. -/
def process_store_error (code : Int) (output : List Nat) (program : String) : PyErr :=
  let text := match utf8Decode output with
    | some cs => String.mk cs
    | none => ""
  .storeError ("Credentials store " ++ program ++ " exited with \"" ++ text ++ "\".")

/-- Embeds `Store._execute`: fail fast when the executable was not resolved;
otherwise launch the helper once and translate its outcome.  The second
component is the list of attempted launches. -/
def Store._execute (st : Store) (helper : Helper) (subcmd : String)
    (data_input : Option (List Nat)) : Except PyErr (List Nat) × List Launch :=
  match st.exe with
  | none =>
    (.error (.storeError (st.program ++ " not installed or not available in PATH")), [])
  | some exe =>
    match helper.run subcmd data_input with
    | .success out => (.ok out, [⟨exe, subcmd, data_input⟩])
    | .calledProcessError code out =>
      (.error (process_store_error code out st.program), [⟨exe, subcmd, data_input⟩])
    | .osError eno strerr =>
      if eno = errnoENOENT then
        (.error (.storeError (st.program ++ " not installed or not available in PATH")),
          [⟨exe, subcmd, data_input⟩])
      else
        (.error (.storeError ("Unexpected OS error \"" ++ strerr ++ "\", errno=" ++
          toString eno)), [⟨exe, subcmd, data_input⟩])

/-- Python subscript `result[k]` on a JSON value: a `dict` yields the value
or raises `KeyError`; any non-dict JSON value raises `TypeError` when
indexed with a string key. -/
def pySubscript (j : Json) (k : String) : Except PyErr Json :=
  match j with
  | .obj fields =>
    match fields.lookup k with
    | some v => .ok v
    | none => .error (.keyError k)
  | _ => .error (.typeError "value is not subscriptable with a str key")

/-- The guard `result['Username'] == '' and result['Secret'] == ''` with
Python's left-to-right short-circuit evaluation. -/
def emptyRecordCheck (result : Json) : Except PyErr Bool :=
  match pySubscript result "Username" with
  | .error e => .error e
  | .ok u =>
    if jsonIsEmptyStr u then
      match pySubscript result "Secret" with
      | .error e => .error e
      | .ok s => .ok (jsonIsEmptyStr s)
    else .ok false

/-- Embeds `Store.get`: encode the server as UTF-8, run the helper with subcommand
`get`, decode and JSON-parse the standard output, and reject an empty
record with `CredentialsNotFound`. -/
def Store.get (st : Store) (helper : Helper) (server : String) :
    Except PyErr Json × List Launch :=
  let serverBytes := utf8Encode server
  match st._execute helper "get" (some serverBytes) with
  | (.error e, tr) => (.error e, tr)
  | (.ok data, tr) =>
    match utf8Decode data with
    | none => (.error .unicodeDecodeError, tr)
    | some chars =>
      match json_loads chars with
      | none => (.error .jsonDecodeError, tr)
      | some result =>
        match emptyRecordCheck result with
        | .error e => (.error e, tr)
        | .ok true =>
          (.error (.credentialsNotFound ("No matching credentials in " ++ st.program)), tr)
        | .ok false => (.ok result, tr)

/-- Embeds `Store.store`: serialize the credential record as JSON and run the
helper with subcommand `store`. -/
def Store.store (st : Store) (helper : Helper) (server username secret : String) :
    Except PyErr (List Nat) × List Launch :=
  let data_input := utf8Encode (json_dumps_cred server username secret)
  st._execute helper "store" (some data_input)

/-- Embeds `Store.erase`: encode the server as UTF-8 and run the helper with
subcommand `erase`; the output is discarded. -/
def Store.erase (st : Store) (helper : Helper) (server : String) :
    Except PyErr Unit × List Launch :=
  let serverBytes := utf8Encode server
  match st._execute helper "erase" (some serverBytes) with
  | (.error e, tr) => (.error e, tr)
  | (.ok _, tr) => (.ok (), tr)

/-- Embeds `Store.list`: run the helper with subcommand `list` and no input, then
decode and JSON-parse the standard output. -/
def Store.list (st : Store) (helper : Helper) : Except PyErr Json × List Launch :=
  match st._execute helper "list" none with
  | (.error e, tr) => (.error e, tr)
  | (.ok data, tr) =>
    match utf8Decode data with
    | none => (.error .unicodeDecodeError, tr)
    | some chars =>
      match json_loads chars with
      | none => (.error .jsonDecodeError, tr)
      | some result => (.ok result, tr)

/-! ## The Unix-socket transport (`docker/transport/unixconn.py`)

Connection pools are values carrying a serial number (`poolId`) stamped at
construction so that object identity is expressible; the adapter state
keeps, besides the cache, a log of every pool ever constructed (`created`)
and of every pool whose `close()` was called by the cache's dispose hook
(`closed`). -/

structure UnixHTTPConnectionPool where
  poolId : Nat
  base_url : String
  socket_path : String
  timeout : Nat
  maxsize : Nat

/-- urllib3 `RecentlyUsedContainer.__getitem__` (reached through
`Mapping.get`): on a hit the entry is popped and re-appended, making it
the most recently used; on a miss nothing changes.  The container is a
list of key-value pairs, most recently used last (the order of an
`OrderedDict` whose oldest entry is first). -/
def lruGet (url : String) :
    List (String × UnixHTTPConnectionPool) →
      Option (UnixHTTPConnectionPool × List (String × UnixHTTPConnectionPool))
  | [] => none
  | (k, p) :: rest =>
    if k = url then some (p, rest ++ [(k, p)])
    else
      match lruGet url rest with
      | none => none
      | some (q, rest') => some (q, (k, p) :: rest')

/-- Replace the value stored under `url`, keeping its position (an
`OrderedDict` assignment to an existing key does not move it). -/
def replaceValue (url : String) (p : UnixHTTPConnectionPool) :
    List (String × UnixHTTPConnectionPool) → List (String × UnixHTTPConnectionPool)
  | [] => []
  | (k, q) :: rest =>
    if k = url then (k, p) :: rest else (k, q) :: replaceValue url p rest

/-- urllib3 `RecentlyUsedContainer.__setitem__`: remember a value evicted
by the assignment (the old value under the same key, overridden by the
entry popped from the least-recently-used end when the container
overflows `maxsize`); the caller's `dispose_func` runs on it.  Returns the
new container and the value to dispose, if any. -/
def lruSet (maxsize : Nat) (url : String) (p : UnixHTTPConnectionPool)
    (pools : List (String × UnixHTTPConnectionPool)) :
    List (String × UnixHTTPConnectionPool) × Option UnixHTTPConnectionPool :=
  let old := pools.lookup url
  let c1 := if old.isSome then replaceValue url p pools else pools ++ [(url, p)]
  if maxsize < c1.length then
    match c1 with
    | [] => ([], old)
    | lru :: rest => (rest, some lru.2)
  else (c1, old)

/-- The mutable state of one `UnixHTTPAdapter`.  `pools` is the
`RecentlyUsedContainer` built in `__init__` with capacity
`pool_connections` and dispose hook `fun p => p.close ()`; `closed`
records the pools that hook has closed, `created` every constructed pool,
and `nextId` the next serial number. -/
structure AdapterState where
  socket_path : String
  timeout : Nat
  max_pool_size : Nat
  pool_connections : Nat
  pools : List (String × UnixHTTPConnectionPool)
  closed : List UnixHTTPConnectionPool
  created : List UnixHTTPConnectionPool
  nextId : Nat

/-- Helper for the `UnixHTTPAdapter.__init__` socket-path derivation: Python
`str.replace(old, '')`: delete every non-overlapping occurrence of `old`,
scanning left to right.  The empty pattern (not used by the adapter) is
mapped to the identity. -/
def pyReplaceDel (o : Char) (os : List Char) : List Char → List Char
  | [] => []
  | c :: rest =>
    if (o :: os).isPrefixOf (c :: rest) then pyReplaceDel o os (rest.drop os.length)
    else c :: pyReplaceDel o os rest
termination_by l => l.length
decreasing_by all_goals simp <;> omega

def pyStrReplaceEmpty (old s : String) : String :=
  match old.data with
  | [] => s
  | o :: os => String.mk (pyReplaceDel o os s.data)

/-- Python `str.startswith(pre)`. -/
def pyStartsWith (pre s : String) : Bool :=
  pre.data.isPrefixOf s.data

/-- The socket path computed by `UnixHTTPAdapter.__init__`:
`socket_url.replace('http+unix://', '')`, then a leading `/` is added when
missing. -/
def socketPathOf (socket_url : String) : String :=
  let socket_path := pyStrReplaceEmpty "http+unix://" socket_url
  if pyStartsWith "/" socket_path then socket_path else "/" ++ socket_path

/-- Embeds `UnixHTTPAdapter.__init__` with an empty cache. -/
def AdapterState.init (socket_url : String) (timeout pool_connections max_pool_size : Nat) :
    AdapterState :=
  { socket_path := socketPathOf socket_url
    timeout := timeout
    max_pool_size := max_pool_size
    pool_connections := pool_connections
    pools := []
    closed := []
    created := []
    nextId := 0 }

/-- Embeds `UnixHTTPAdapter.get_connection`: under the container's lock, look the
URL up (a hit is returned as is); on a miss construct a
`UnixHTTPConnectionPool(url, self.socket_path, self.timeout,
maxsize=self.max_pool_size)` and insert it, which may evict and dispose
the least recently used pool.  The source holds `self.pools.lock` across
the whole body, so the function is one atomic step of the adapter
state. -/
def get_connection (st : AdapterState) (url : String) :
    UnixHTTPConnectionPool × AdapterState :=
  match lruGet url st.pools with
  | some (pool, pools') => (pool, { st with pools := pools' })
  | none =>
    let pool : UnixHTTPConnectionPool :=
      { poolId := st.nextId
        base_url := url
        socket_path := st.socket_path
        timeout := st.timeout
        maxsize := st.max_pool_size }
    let step := lruSet st.pool_connections url pool st.pools
    (pool,
      { st with
        pools := step.1
        closed := match step.2 with
          | some q => q :: st.closed
          | none => st.closed
        created := pool :: st.created
        nextId := st.nextId + 1 })

/-- The parts of a `requests.PreparedRequest` that `path_url` reads: the
path and query components of the prepared URL. -/
structure PreparedRequest where
  path : String
  query : String

/-- Model of `requests.PreparedRequest.path_url`: the path (defaulting to `/` when
empty) followed by `?query` when a query string is present. -/
def PreparedRequest.path_url (r : PreparedRequest) : String :=
  (if r.path = "" then "/" else r.path) ++ (if r.query = "" then "" else "?" ++ r.query)

/-- Embeds `UnixHTTPAdapter.request_url`: the request's `path_url`, the proxies
mapping ignored. -/
def request_url (request : PreparedRequest) (proxies : List (String × String)) : String :=
  request.path_url

/-! ## The Unix-socket connection (`UnixHTTPConnection.connect`) -/

def AF_UNIX : Nat := 1

def SOCK_STREAM : Nat := 1

/-- Why a dial of a Unix socket path fails, as classified by the spec's
error taxonomy: the path does not exist, the path is not a socket, the
dial timed out, or the peer refused. -/
inductive DialError where
  | noSuchPath
  | notASocket
  | timedOut
  | refused

inductive DialResult where
  | ok
  | err (e : DialError)

/-- Oracle for the operating system: the outcome of connecting a fresh
stream-domain local socket to a filesystem path. -/
structure OSEnv where
  dial : String → DialResult

/-- The spec's `ConnectionError` kind, wrapping the dial failure. -/
inductive TransportErr where
  | connectionError (e : DialError)

/-- Events `connect()` causes, in order: socket creation with a domain and
type, setting the socket timeout, and dialing a path. -/
inductive SockEvent where
  | socketCreate (family stype : Nat)
  | setTimeout (t : Nat)
  | connectTo (path : String)

/-- A connected socket as the connection records it: its domain, type and
the timeout that was applied before dialing. -/
structure ConnectedSock where
  family : Nat
  stype : Nat
  timeout : Nat

structure UnixHTTPConnection where
  base_url : String
  unix_socket : String
  timeout : Nat
  sock : Option ConnectedSock

/-- Embeds `UnixHTTPConnection.connect`: create an `AF_UNIX`/`SOCK_STREAM`
socket, apply the configured timeout, dial the configured path once, and
store the socket on success; a dial failure propagates as the
`ConnectionError` kind with no retry.  The second component is the event
trace. -/
def UnixHTTPConnection.connect (c : UnixHTTPConnection) (os : OSEnv) :
    Except TransportErr UnixHTTPConnection × List SockEvent :=
  let events := [SockEvent.socketCreate AF_UNIX SOCK_STREAM,
    SockEvent.setTimeout c.timeout,
    SockEvent.connectTo c.unix_socket]
  match os.dial c.unix_socket with
  | .ok =>
    (.ok { c with sock := some { family := AF_UNIX, stype := SOCK_STREAM, timeout := c.timeout } },
      events)
  | .err e => (.error (.connectionError e), events)

/-- Count of dial attempts in a trace. -/
def dialCount : List SockEvent → Nat
  | [] => 0
  | .connectTo _ :: r => dialCount r + 1
  | _ :: r => dialCount r

/-- Whether `pat` occurs as a contiguous block anywhere in the list. -/
def occursIn (pat : List Char) : List Char → Bool
  | [] => pat.isEmpty
  | c :: rest => pat.isPrefixOf (c :: rest) || occursIn pat rest

/-- Python `needle in hay` on strings. -/
def containsText (needle hay : String) : Bool :=
  occursIn needle.data hay.data

/-! ## Supporting lemmas -/

theorem occursIn_append_right (pat x y : List Char) (h : occursIn pat y = true) :
    occursIn pat (x ++ y) = true := by
  induction x with
  | nil => simpa using h
  | cons c x' ih => simp [occursIn, ih]

theorem pyReplaceDel_no_occurrence (o : Char) (os l : List Char)
    (h : occursIn (o :: os) l = false) : pyReplaceDel o os l = l := by
  induction l with
  | nil => simp [pyReplaceDel]
  | cons c rest ih =>
    rw [occursIn] at h
    simp only [Bool.or_eq_false_iff] at h
    rw [pyReplaceDel, if_neg (by simp [h.1]), ih h.2]

theorem pyReplaceDel_strip (o : Char) (os l : List Char) :
    pyReplaceDel o os (o :: (os ++ l)) = pyReplaceDel o os l := by
  have hpre : (o :: os).isPrefixOf (o :: (os ++ l)) = true := by
    simpa [List.isPrefixOf_iff_prefix] using ⟨l, rfl⟩
  rw [pyReplaceDel, if_pos hpre, List.drop_left]

/-! ## Claim theorems -/

/-- Claim C2: `UnixHTTPAdapter.request_url` ignores the proxies mapping and
returns exactly the request's path component including the query string:
it agrees with `path_url` for every proxies value, any two proxies values
give the same string, and on the path `/containers/json` with query
`all=1` the result is `/containers/json?all=1`. -/
theorem request_url_is_pure_path_url :
    (∀ (r : PreparedRequest) (p p' : List (String × String)),
       request_url r p = request_url r p') ∧
    (∀ (r : PreparedRequest) (p : List (String × String)),
       request_url r p = r.path_url) ∧
    (∀ p : List (String × String),
       request_url { path := "/containers/json", query := "all=1" } p
         = "/containers/json?all=1") := by
  refine ⟨fun r p p' => rfl, fun r p => rfl, fun p => rfl⟩

/-- Claim C8: `UnixHTTPConnection.connect` creates a stream-domain local
socket (`AF_UNIX`, `SOCK_STREAM`), applies the configured timeout to the
socket before dialing, dials the configured filesystem path exactly once
(no retry), and a dial failure (missing path, not a socket, timeout)
surfaces as the `ConnectionError` kind. -/
theorem unix_connection_connect_spec :
    ∀ (c : UnixHTTPConnection) (os : OSEnv),
      ((c.connect os).2 = [SockEvent.socketCreate AF_UNIX SOCK_STREAM,
          SockEvent.setTimeout c.timeout, SockEvent.connectTo c.unix_socket]) ∧
      (dialCount (c.connect os).2 = 1) ∧
      (∀ e, os.dial c.unix_socket = .err e →
        (c.connect os).1 = .error (.connectionError e)) ∧
      (os.dial c.unix_socket = .ok →
        (c.connect os).1 =
          .ok { c with sock := some (ConnectedSock.mk AF_UNIX SOCK_STREAM c.timeout) }) := by
  intro c os
  cases h : os.dial c.unix_socket <;>
    simp [UnixHTTPConnection.connect, h, dialCount]

/-- Witness for C8 at a concrete connection and an OS on which the path
does not exist. -/
theorem unix_connection_connect_spec_witness :
    (OSEnv.mk (fun _ => .err .noSuchPath)).dial "/var/run/docker.sock" = .err .noSuchPath ∧
    ((UnixHTTPConnection.mk "http+unix://localhost" "/var/run/docker.sock" 60 none).connect
        (OSEnv.mk (fun _ => .err .noSuchPath))).1
      = .error (.connectionError .noSuchPath) := by
  refine ⟨rfl, ?_⟩
  exact (unix_connection_connect_spec
    (UnixHTTPConnection.mk "http+unix://localhost" "/var/run/docker.sock" 60 none)
    (OSEnv.mk (fun _ => .err .noSuchPath))).2.2.1 .noSuchPath rfl

/-- Claim C7: the adapter's socket-path derivation strips the
`http+unix://` scheme and ensures a leading slash: the derived path always
starts with `/`, and when the scheme prefix occurs only at the front of
the URL the result is the path remainder, prefixed with `/` exactly when
it lacks one. -/
theorem unixadapter_socket_path_derivation :
    (∀ socket_url : String, ∃ t, (socketPathOf socket_url).data = '/' :: t) ∧
    (∀ rest : String, occursIn "http+unix://".data rest.data = false →
      socketPathOf ("http+unix://" ++ rest) =
        if pyStartsWith "/" rest then rest else "/" ++ rest) := by
  constructor
  · intro u
    by_cases h : pyStartsWith "/" (pyStrReplaceEmpty "http+unix://" u) = true
    · obtain ⟨t, ht⟩ := List.isPrefixOf_iff_prefix.mp h
      exact ⟨t, by rw [socketPathOf, if_pos h]; exact ht.symm⟩
    · refine ⟨(pyStrReplaceEmpty "http+unix://" u).data, ?_⟩
      rw [socketPathOf, if_neg h, String.data_append]
      rfl
  · intro rest h
    have hdata : ("http+unix://" ++ rest).data
        = 'h' :: ("ttp+unix://".data ++ rest.data) := by
      rw [String.data_append]
      rfl
    have hrepl : pyStrReplaceEmpty "http+unix://" ("http+unix://" ++ rest) = rest := by
      rw [pyStrReplaceEmpty]
      simp only [hdata]
      rw [show "http+unix://".data = 'h' :: "ttp+unix://".data from rfl] at h
      rw [pyReplaceDel_strip, pyReplaceDel_no_occurrence _ _ _ h]
    rw [socketPathOf, hrepl]

/-- Witness for C7 at the standard Docker socket URL. -/
theorem unixadapter_socket_path_derivation_witness :
    occursIn "http+unix://".data "/var/run/docker.sock".data = false ∧
    socketPathOf ("http+unix://" ++ "/var/run/docker.sock") = "/var/run/docker.sock" := by
  refine ⟨by decide, ?_⟩
  have h := unixadapter_socket_path_derivation.2 "/var/run/docker.sock" (by decide)
  rw [h]
  decide

theorem occursIn_of_isPrefixOf (pat l : List Char) (h : pat.isPrefixOf l = true) :
    occursIn pat l = true := by
  cases l with
  | nil =>
    cases pat with
    | nil => rfl
    | cons p ps => simp [List.isPrefixOf] at h
  | cons c r => simp [occursIn, h]

theorem occursIn_append_self (pat rest : List Char) :
    occursIn pat (pat ++ rest) = true := by
  refine occursIn_of_isPrefixOf _ _ ?_
  exact List.isPrefixOf_iff_prefix.mpr ⟨rest, rfl⟩

/-- Claim C4: when the helper executable is absent from the search path at
construction, every operation — `get`, `store`, `erase` and `list` — fails
with a `StoreError` whose message contains `not installed`, and no process
launch is attempted (the launch trace is empty). -/
theorem store_missing_helper_fails_fast
    (which : String → Option String) (program : String) (helper : Helper)
    (server username secret : String)
    (h : which (PROGRAM_PREFIX ++ program) = none) :
    ((Store.init which program).get helper server =
        (.error (.storeError (PROGRAM_PREFIX ++ program ++
          " not installed or not available in PATH")), [])) ∧
    ((Store.init which program).store helper server username secret =
        (.error (.storeError (PROGRAM_PREFIX ++ program ++
          " not installed or not available in PATH")), [])) ∧
    ((Store.init which program).erase helper server =
        (.error (.storeError (PROGRAM_PREFIX ++ program ++
          " not installed or not available in PATH")), [])) ∧
    ((Store.init which program).list helper =
        (.error (.storeError (PROGRAM_PREFIX ++ program ++
          " not installed or not available in PATH")), [])) ∧
    containsText "not installed"
      (PROGRAM_PREFIX ++ program ++ " not installed or not available in PATH") = true := by
  have hexe : (Store.init which program).exe = none := by
    simpa [Store.init] using h
  have hprog : (Store.init which program).program = PROGRAM_PREFIX ++ program := rfl
  have hexec : ∀ subcmd inp, (Store.init which program)._execute helper subcmd inp =
      (.error (.storeError (PROGRAM_PREFIX ++ program ++
        " not installed or not available in PATH")), []) := by
    intro subcmd inp
    rw [Store._execute, hexe, hprog]
  refine ⟨?_, ?_, ?_, ?_, ?_⟩
  · rw [Store.get, hexec]
  · rw [Store.store, hexec]
  · rw [Store.erase, hexec]
  · rw [Store.list, hexec]
  · rw [containsText, String.data_append]
    exact occursIn_append_right _ _ _ (by decide)

/-- Witness for C4: the `pass` helper missing from the search path. -/
theorem store_missing_helper_fails_fast_witness :
    ((fun _ : String => (none : Option String)) (PROGRAM_PREFIX ++ "pass") = none) ∧
    (Store.init (fun _ => none) "pass").get (Helper.mk fun _ _ => .success []) "s" =
      (.error (.storeError (PROGRAM_PREFIX ++ "pass" ++
        " not installed or not available in PATH")), []) := by
  refine ⟨rfl, ?_⟩
  exact (store_missing_helper_fails_fast (fun _ => none) "pass"
    (Helper.mk fun _ _ => .success []) "s" "u" "p" rfl).1

/-- Claim C5: with a resolved executable, `Store._execute` translates every
process outcome: a non-zero exit raises the `StoreError` produced by the
helper's textual error convention (its message contains the program name);
an OS launch failure with `ENOENT` raises the same `not installed`
`StoreError` as a missing executable; any other OS launch failure raises a
`StoreError` carrying the `strerror` text and the `errno` code; and a zero
exit raises nothing, returning the standard output bytes. -/
theorem execute_outcome_translation
    (st : Store) (exe : String) (helper : Helper) (subcmd : String)
    (inp : Option (List Nat)) (hexe : st.exe = some exe) :
    (∀ code out, helper.run subcmd inp = .calledProcessError code out →
       st._execute helper subcmd inp =
         (.error (process_store_error code out st.program), [Launch.mk exe subcmd inp]) ∧
       ∃ m, process_store_error code out st.program = .storeError m ∧
         containsText st.program m = true) ∧
    (∀ strerr, helper.run subcmd inp = .osError errnoENOENT strerr →
       st._execute helper subcmd inp =
         (.error (.storeError (st.program ++ " not installed or not available in PATH")),
           [Launch.mk exe subcmd inp])) ∧
    (∀ eno strerr, helper.run subcmd inp = .osError eno strerr → eno ≠ errnoENOENT →
       st._execute helper subcmd inp =
         (.error (.storeError ("Unexpected OS error \"" ++ strerr ++ "\", errno=" ++
           toString eno)), [Launch.mk exe subcmd inp])) ∧
    (∀ out, helper.run subcmd inp = .success out →
       st._execute helper subcmd inp = (.ok out, [Launch.mk exe subcmd inp])) := by
  refine ⟨?_, ?_, ?_, ?_⟩
  · intro code out hrun
    constructor
    · rw [Store._execute, hexe, hrun]
    · refine ⟨_, rfl, ?_⟩
      rw [containsText]
      simp only [String.data_append, List.append_assoc]
      exact occursIn_append_right _ _ _ (occursIn_append_self _ _)
  · intro strerr hrun
    simp [Store._execute, hexe, hrun]
  · intro eno strerr hrun hne
    simp [Store._execute, hexe, hrun, hne]
  · intro out hrun
    rw [Store._execute, hexe, hrun]

/-- Witness for C5 at a zero-exit run of a resolved helper. -/
theorem execute_outcome_translation_witness :
    (Store.mk "docker-credential-desktop" (some "/usr/bin/docker-credential-desktop")).exe
      = some "/usr/bin/docker-credential-desktop" ∧
    (Helper.mk fun _ _ => .success [123]).run "get" (some [97]) = .success [123] ∧
    (Store.mk "docker-credential-desktop"
        (some "/usr/bin/docker-credential-desktop"))._execute
        (Helper.mk fun _ _ => .success [123]) "get" (some [97])
      = (.ok [123], [Launch.mk "/usr/bin/docker-credential-desktop" "get" (some [97])]) := by
  refine ⟨rfl, rfl, ?_⟩
  exact (execute_outcome_translation
    (Store.mk "docker-credential-desktop" (some "/usr/bin/docker-credential-desktop"))
    "/usr/bin/docker-credential-desktop" (Helper.mk fun _ _ => .success [123]) "get"
    (some [97]) rfl).2.2.2 [123] rfl

theorem jsonIsEmptyStr_true_iff (j : Json) : jsonIsEmptyStr j = true ↔ j = Json.str "" := by
  cases j <;> simp [jsonIsEmptyStr]

theorem execute_trace (st : Store) (exe : String) (helper : Helper) (subcmd : String)
    (inp : Option (List Nat)) (hexe : st.exe = some exe) :
    (st._execute helper subcmd inp).2 = [Launch.mk exe subcmd inp] := by
  rcases h : helper.run subcmd inp with _ | _ | _ <;>
    simp only [Store._execute, hexe, h] <;>
    first
    | rfl
    | (split <;> rfl)

theorem get_trace (st : Store) (helper : Helper) (server : String) :
    (st.get helper server).2 = (st._execute helper "get" (some (utf8Encode server))).2 := by
  rcases hx : st._execute helper "get" (some (utf8Encode server)) with ⟨res, tr⟩
  cases res with
  | error e => simp [Store.get, hx]
  | ok data =>
    cases hd : utf8Decode data with
    | none => simp [Store.get, hx, hd]
    | some cs =>
      cases hj : json_loads cs with
      | none => simp [Store.get, hx, hd, hj]
      | some result =>
        rcases hec : emptyRecordCheck result with e | b
        · simp [Store.get, hx, hd, hj, hec]
        · cases b <;> simp [Store.get, hx, hd, hj, hec]

theorem get_eq_of_success (st : Store) (exe : String) (helper : Helper) (server : String)
    (out : List Nat) (cs : List Char) (result : Json)
    (hexe : st.exe = some exe)
    (hrun : helper.run "get" (some (utf8Encode server)) = .success out)
    (hdec : utf8Decode out = some cs)
    (hparse : json_loads cs = some result) :
    st.get helper server =
      ((match emptyRecordCheck result with
        | .error e => .error e
        | .ok true =>
          .error (.credentialsNotFound ("No matching credentials in " ++ st.program))
        | .ok false => .ok result),
       [Launch.mk exe "get" (some (utf8Encode server))]) := by
  have hx : st._execute helper "get" (some (utf8Encode server)) =
      (.ok out, [Launch.mk exe "get" (some (utf8Encode server))]) := by
    rw [Store._execute, hexe, hrun]
  rcases hec : emptyRecordCheck result with e | b
  · simp [Store.get, hx, hdec, hparse, hec]
  · cases b <;> simp [Store.get, hx, hdec, hparse, hec]

/-- Claim C9: process input framing of the credential protocol.  With a
resolved executable, `get(server)` launches the helper exactly once with
subcommand `get` and the UTF-8 encoding of `server` on standard input;
`store(server, username, secret)` launches it once with subcommand
`store` and the UTF-8 JSON serialization of
`(ServerURL, Username, Secret)` on standard input; and any record `get`
returns is the JSON parse of the helper's standard output. -/
theorem credential_protocol_framing
    (st : Store) (exe : String) (helper : Helper) (server username secret : String)
    (hexe : st.exe = some exe) :
    ((st.get helper server).2 = [Launch.mk exe "get" (some (utf8Encode server))]) ∧
    ((st.store helper server username secret).2 =
      [Launch.mk exe "store" (some (utf8Encode (json_dumps_cred server username secret)))]) ∧
    (∀ out r, helper.run "get" (some (utf8Encode server)) = .success out →
      (st.get helper server).1 = .ok r →
      ∃ cs, utf8Decode out = some cs ∧ json_loads cs = some r) := by
  refine ⟨?_, ?_, ?_⟩
  · rw [get_trace]
    exact execute_trace st exe helper "get" _ hexe
  · rw [Store.store]
    exact execute_trace st exe helper "store" _ hexe
  · intro out r hrun hok
    have hx : st._execute helper "get" (some (utf8Encode server)) =
        (.ok out, [Launch.mk exe "get" (some (utf8Encode server))]) := by
      rw [Store._execute, hexe, hrun]
    cases hd : utf8Decode out with
    | none => simp [Store.get, hx, hd] at hok
    | some cs =>
      cases hj : json_loads cs with
      | none => simp [Store.get, hx, hd, hj] at hok
      | some result =>
        refine ⟨cs, rfl, ?_⟩
        rw [get_eq_of_success st exe helper server out cs result hexe hrun hd hj] at hok
        rcases hec : emptyRecordCheck result with e | b
        · rw [hec] at hok
          simp at hok
        · cases b
          · rw [hec] at hok
            simp at hok
            rw [hj, hok]
          · rw [hec] at hok
            simp at hok

/-- Witness for C9 at a concrete store, helper and record. -/
theorem credential_protocol_framing_witness :
    (Store.mk "docker-credential-pass" (some "/usr/bin/docker-credential-pass")).exe
      = some "/usr/bin/docker-credential-pass" ∧
    ((Store.mk "docker-credential-pass" (some "/usr/bin/docker-credential-pass")).store
        (Helper.mk fun _ _ => .success []) "s" "u" "p").2
      = [Launch.mk "/usr/bin/docker-credential-pass" "store"
          (some (utf8Encode (json_dumps_cred "s" "u" "p")))] := by
  refine ⟨rfl, ?_⟩
  exact (credential_protocol_framing
    (Store.mk "docker-credential-pass" (some "/usr/bin/docker-credential-pass"))
    "/usr/bin/docker-credential-pass" (Helper.mk fun _ _ => .success []) "s" "u" "p"
    rfl).2.1

/-- Claim C1: when the helper exits 0 and its standard output parses as a
JSON object carrying both a `Username` and a `Secret` field, `Store.get`
raises `CredentialsNotFound` (not a plain `StoreError`) exactly when both
fields equal the empty string, and returns the parsed record when at
least one of the two differs from the empty string. -/
theorem get_empty_record_credentials_not_found
    (st : Store) (exe : String) (helper : Helper) (server : String)
    (out : List Nat) (cs : List Char) (fields : List (String × Json)) (u s : Json)
    (hexe : st.exe = some exe)
    (hrun : helper.run "get" (some (utf8Encode server)) = .success out)
    (hdec : utf8Decode out = some cs)
    (hparse : json_loads cs = some (Json.obj fields))
    (hu : fields.lookup "Username" = some u)
    (hs : fields.lookup "Secret" = some s) :
    ((u = Json.str "" ∧ s = Json.str "") →
      (st.get helper server).1 =
        .error (.credentialsNotFound ("No matching credentials in " ++ st.program))) ∧
    (¬(u = Json.str "" ∧ s = Json.str "") →
      (st.get helper server).1 = .ok (Json.obj fields)) := by
  have hred := get_eq_of_success st exe helper server out cs (Json.obj fields)
    hexe hrun hdec hparse
  have hsubU : pySubscript (Json.obj fields) "Username" = .ok u := by
    simp [pySubscript, hu]
  have hsubS : pySubscript (Json.obj fields) "Secret" = .ok s := by
    simp [pySubscript, hs]
  constructor
  · rintro ⟨hu', hs'⟩
    subst hu'
    subst hs'
    have hec : emptyRecordCheck (Json.obj fields) = .ok true := by
      rw [emptyRecordCheck, hsubU]
      simp [jsonIsEmptyStr, hsubS]
    rw [hred, hec]
  · intro hne
    by_cases hA : u = Json.str ""
    · have hB : s ≠ Json.str "" := fun hB => hne ⟨hA, hB⟩
      have hsb : jsonIsEmptyStr s = false := by
        rw [← Bool.not_eq_true, jsonIsEmptyStr_true_iff]
        exact hB
      have hec : emptyRecordCheck (Json.obj fields) = .ok false := by
        rw [emptyRecordCheck, hsubU, hA]
        simp [show jsonIsEmptyStr (Json.str "") = true from rfl, hsubS, hsb]
      rw [hred, hec]
    · have hub : jsonIsEmptyStr u = false := by
        rw [← Bool.not_eq_true, jsonIsEmptyStr_true_iff]
        exact hA
      have hec : emptyRecordCheck (Json.obj fields) = .ok false := by
        rw [emptyRecordCheck, hsubU]
        simp [hub]
      rw [hred, hec]

/-- Witness for C1: a helper answering with an all-empty record makes
`get` raise `CredentialsNotFound`. -/
theorem get_empty_record_credentials_not_found_witness :
    (Helper.mk fun _ _ =>
        .success (utf8Encode "\x7b\"Username\": \"\", \"Secret\": \"\"\x7d")).run "get"
        (some (utf8Encode "registry.example.com"))
      = .success (utf8Encode "\x7b\"Username\": \"\", \"Secret\": \"\"\x7d") ∧
    ((Store.mk "docker-credential-pass" (some "/usr/bin/docker-credential-pass")).get
        (Helper.mk fun _ _ =>
          .success (utf8Encode "\x7b\"Username\": \"\", \"Secret\": \"\"\x7d"))
        "registry.example.com").1
      = .error (.credentialsNotFound
          ("No matching credentials in " ++ "docker-credential-pass")) := by
  refine ⟨rfl, ?_⟩
  exact (get_empty_record_credentials_not_found
    (Store.mk "docker-credential-pass" (some "/usr/bin/docker-credential-pass"))
    "/usr/bin/docker-credential-pass"
    (Helper.mk fun _ _ =>
      .success (utf8Encode "\x7b\"Username\": \"\", \"Secret\": \"\"\x7d"))
    "registry.example.com"
    (utf8Encode "\x7b\"Username\": \"\", \"Secret\": \"\"\x7d")
    "\x7b\"Username\": \"\", \"Secret\": \"\"\x7d".data
    [("Username", Json.str ""), ("Secret", Json.str "")]
    (Json.str "") (Json.str "")
    rfl rfl rfl rfl rfl rfl).1 ⟨rfl, rfl⟩

/-- Counterexample for C10 as stated: a zero-exit helper output that is a
valid JSON object lacking the `Secret` key does not raise any lookup
error — `get` returns the record, because `Username` is non-empty and
Python's `and` short-circuits before `result['Secret']` is evaluated. -/
theorem get_missing_secret_returns_record :
    ((Store.mk "docker-credential-pass" (some "/usr/bin/docker-credential-pass")).get
        (Helper.mk fun _ _ => .success (utf8Encode "\x7b\"Username\": \"u\"\x7d"))
        "registry.example.com").1
      = .ok (Json.obj [("Username", Json.str "u")]) := rfl

/-- Claim C10 (amended): `Store.get` accesses the parsed output's
`Username` and `Secret` fields unguarded, but through Python's
short-circuiting `and`.  On a zero exit whose output is valid JSON: a
non-object raises `TypeError`; an object lacking `Username` raises
`KeyError`; an object whose `Username` equals the empty string and which
lacks `Secret` raises `KeyError`; and an object whose `Username` is
present and non-empty is returned even when `Secret` is absent. -/
theorem get_unguarded_subscript_errors
    (st : Store) (exe : String) (helper : Helper) (server : String)
    (out : List Nat) (cs : List Char)
    (hexe : st.exe = some exe)
    (hrun : helper.run "get" (some (utf8Encode server)) = .success out)
    (hdec : utf8Decode out = some cs) :
    (∀ j, json_loads cs = some j → (∀ fs, j ≠ Json.obj fs) →
      (st.get helper server).1 =
        .error (.typeError "value is not subscriptable with a str key")) ∧
    (∀ fields, json_loads cs = some (Json.obj fields) →
      fields.lookup "Username" = none →
      (st.get helper server).1 = .error (.keyError "Username")) ∧
    (∀ fields, json_loads cs = some (Json.obj fields) →
      fields.lookup "Username" = some (Json.str "") →
      fields.lookup "Secret" = none →
      (st.get helper server).1 = .error (.keyError "Secret")) ∧
    (∀ fields u, json_loads cs = some (Json.obj fields) →
      fields.lookup "Username" = some u → jsonIsEmptyStr u = false →
      (st.get helper server).1 = .ok (Json.obj fields)) := by
  refine ⟨?_, ?_, ?_, ?_⟩
  · intro j hparse hnotobj
    have hred := get_eq_of_success st exe helper server out cs j hexe hrun hdec hparse
    have hsub : pySubscript j "Username" = .error (.typeError
        "value is not subscriptable with a str key") := by
      cases j <;> first
        | rfl
        | exact absurd rfl (hnotobj _)
    have hec : emptyRecordCheck j = .error (.typeError
        "value is not subscriptable with a str key") := by
      rw [emptyRecordCheck, hsub]
    rw [hred, hec]
  · intro fields hparse hu
    have hred := get_eq_of_success st exe helper server out cs (Json.obj fields)
      hexe hrun hdec hparse
    have hsub : pySubscript (Json.obj fields) "Username" = .error (.keyError "Username") := by
      simp [pySubscript, hu]
    have hec : emptyRecordCheck (Json.obj fields) = .error (.keyError "Username") := by
      rw [emptyRecordCheck, hsub]
    rw [hred, hec]
  · intro fields hparse hu hs
    have hred := get_eq_of_success st exe helper server out cs (Json.obj fields)
      hexe hrun hdec hparse
    have hsubU : pySubscript (Json.obj fields) "Username" = .ok (Json.str "") := by
      simp [pySubscript, hu]
    have hsubS : pySubscript (Json.obj fields) "Secret" = .error (.keyError "Secret") := by
      simp [pySubscript, hs]
    have hec : emptyRecordCheck (Json.obj fields) = .error (.keyError "Secret") := by
      rw [emptyRecordCheck, hsubU]
      simp [show jsonIsEmptyStr (Json.str "") = true from rfl, hsubS]
    rw [hred, hec]
  · intro fields u hparse hu hune
    have hred := get_eq_of_success st exe helper server out cs (Json.obj fields)
      hexe hrun hdec hparse
    have hsubU : pySubscript (Json.obj fields) "Username" = .ok u := by
      simp [pySubscript, hu]
    have hec : emptyRecordCheck (Json.obj fields) = .ok false := by
      rw [emptyRecordCheck, hsubU]
      simp [hune]
    rw [hred, hec]

/-- Witness for the amended C10: output `⦃"Username": ""⦄` (an object with
empty `Username` and no `Secret` key) makes `get` raise `KeyError` on
`Secret`. -/
theorem get_unguarded_subscript_errors_witness :
    (Helper.mk fun _ _ => .success (utf8Encode "\x7b\"Username\": \"\"\x7d")).run "get"
        (some (utf8Encode "registry.example.com"))
      = .success (utf8Encode "\x7b\"Username\": \"\"\x7d") ∧
    ((Store.mk "docker-credential-pass" (some "/usr/bin/docker-credential-pass")).get
        (Helper.mk fun _ _ => .success (utf8Encode "\x7b\"Username\": \"\"\x7d"))
        "registry.example.com").1
      = .error (.keyError "Secret") := by
  refine ⟨rfl, ?_⟩
  exact (get_unguarded_subscript_errors
    (Store.mk "docker-credential-pass" (some "/usr/bin/docker-credential-pass"))
    "/usr/bin/docker-credential-pass"
    (Helper.mk fun _ _ => .success (utf8Encode "\x7b\"Username\": \"\"\x7d"))
    "registry.example.com"
    (utf8Encode "\x7b\"Username\": \"\"\x7d")
    "\x7b\"Username\": \"\"\x7d".data
    rfl rfl rfl).2.2.1 [("Username", Json.str "")] rfl rfl rfl

/-! ## Lemmas about the LRU pool cache -/

theorem lookup_eq_none_iff_not_mem_keys {β : Type} (a : String) (l : List (String × β)) :
    l.lookup a = none ↔ a ∉ l.map Prod.fst := by
  induction l with
  | nil => simp
  | cons kv rest ih =>
    obtain ⟨k, v⟩ := kv
    by_cases h : a = k
    · subst h
      simp [List.lookup]
    · simp [List.lookup, beq_false_of_ne h, ih, h]

theorem lookup_append_of_left_none {β : Type} (a : String)
    (l1 l2 : List (String × β)) (h : l1.lookup a = none) :
    (l1 ++ l2).lookup a = l2.lookup a := by
  induction l1 with
  | nil => rfl
  | cons kv rest ih =>
    obtain ⟨k, v⟩ := kv
    rcases hak : a == k with _ | _
    · simp only [List.lookup, hak] at h ⊢
      exact ih h
    · simp [List.lookup, hak] at h

theorem lruGet_none_lookup (url : String) (l : List (String × UnixHTTPConnectionPool))
    (h : lruGet url l = none) : l.lookup url = none := by
  induction l with
  | nil => rfl
  | cons kv rest ih =>
    obtain ⟨k, p⟩ := kv
    rw [lruGet] at h
    by_cases hk : k = url
    · simp [hk] at h
    · rw [if_neg hk] at h
      have hrest : lruGet url rest = none := by
        rcases hg : lruGet url rest with _ | q
        · rfl
        · rw [hg] at h
          simp at h
      have hne : url ≠ k := fun he => hk he.symm
      simp [List.lookup, beq_false_of_ne hne, ih hrest]

theorem lruGet_some_length (url : String) (l l' : List (String × UnixHTTPConnectionPool))
    (p : UnixHTTPConnectionPool) (h : lruGet url l = some (p, l')) :
    l'.length = l.length := by
  induction l generalizing l' with
  | nil => simp [lruGet] at h
  | cons kv rest ih =>
    obtain ⟨k, q⟩ := kv
    rw [lruGet] at h
    by_cases hk : k = url
    · rw [if_pos hk] at h
      obtain ⟨hp, hl⟩ := Prod.mk.injEq .. ▸ Option.some.inj h
      subst hl
      simp
    · rw [if_neg hk] at h
      rcases hg : lruGet url rest with _ | ⟨q', rest'⟩
      · rw [hg] at h
        simp at h
      · rw [hg] at h
        simp only [Option.some.injEq, Prod.mk.injEq] at h
        obtain ⟨hp, hl⟩ := h
        subst hl
        simp [ih rest' (hp ▸ hg)]

theorem lruGet_some_shape (url : String) (l l' : List (String × UnixHTTPConnectionPool))
    (p : UnixHTTPConnectionPool) (hnd : (l.map Prod.fst).Nodup)
    (h : lruGet url l = some (p, l')) :
    ∃ front, l' = front ++ [(url, p)] ∧ front.lookup url = none := by
  induction l generalizing l' with
  | nil => simp [lruGet] at h
  | cons kv rest ih =>
    obtain ⟨k, q⟩ := kv
    rw [lruGet] at h
    simp only [List.map_cons, List.nodup_cons] at hnd
    by_cases hk : k = url
    · rw [if_pos hk] at h
      obtain ⟨hp, hl⟩ := Prod.mk.injEq .. ▸ Option.some.inj h
      subst hk
      subst hp
      subst hl
      refine ⟨rest, rfl, ?_⟩
      exact (lookup_eq_none_iff_not_mem_keys _ _).mpr hnd.1
    · rw [if_neg hk] at h
      rcases hg : lruGet url rest with _ | ⟨q', rest'⟩
      · rw [hg] at h
        simp at h
      · rw [hg] at h
        obtain ⟨hp, hl⟩ := Prod.mk.injEq .. ▸ Option.some.inj h
        subst hp
        subst hl
        obtain ⟨front, hf, hfl⟩ := ih rest' hnd.2 hg
        refine ⟨(k, q) :: front, by simp [hf], ?_⟩
        have hne : url ≠ k := fun he => hk he.symm
        simp [List.lookup, beq_false_of_ne hne, hfl]

theorem lruGet_append_hit (url : String) (front : List (String × UnixHTTPConnectionPool))
    (p : UnixHTTPConnectionPool) (h : front.lookup url = none) :
    lruGet url (front ++ [(url, p)]) = some (p, front ++ [(url, p)]) := by
  induction front with
  | nil => simp [lruGet]
  | cons kv rest ih =>
    obtain ⟨k, q⟩ := kv
    by_cases huk : url = k
    · subst huk
      simp [List.lookup] at h
    · have hak : (url == k) = false := beq_false_of_ne huk
      simp only [List.lookup, hak] at h
      have hk : ¬ k = url := fun he => huk he.symm
      rw [List.cons_append, lruGet, if_neg hk, ih h]

theorem lruSet_evict (maxsize : Nat) (url : String) (p : UnixHTTPConnectionPool)
    (k0 : String) (v0 : UnixHTTPConnectionPool)
    (rest : List (String × UnixHTTPConnectionPool))
    (hlk : ((k0, v0) :: rest).lookup url = none)
    (hlen : ((k0, v0) :: rest).length = maxsize) :
    lruSet maxsize url p ((k0, v0) :: rest) = (rest ++ [(url, p)], some v0) := by
  have hlen' : rest.length + 1 = maxsize := by
    simpa using hlen
  have hlt : maxsize < ((k0, v0) :: (rest ++ [(url, p)])).length := by
    simp only [List.length_cons, List.length_append, List.length_singleton]
    omega
  simp only [lruSet, hlk, Option.isSome_none, Bool.false_eq_true, if_false,
    List.cons_append, if_pos hlt]

theorem lruSet_append (maxsize : Nat) (url : String) (p : UnixHTTPConnectionPool)
    (pools : List (String × UnixHTTPConnectionPool))
    (hlk : pools.lookup url = none)
    (hlen : pools.length < maxsize) :
    lruSet maxsize url p pools = (pools ++ [(url, p)], none) := by
  have hlt : ¬ maxsize < (pools ++ [(url, p)]).length := by
    simp only [List.length_append, List.length_singleton]
    omega
  simp only [lruSet, hlk, Option.isSome_none, Bool.false_eq_true, if_false, if_neg hlt]

theorem get_connection_hit (st : AdapterState) (url : String)
    (p : UnixHTTPConnectionPool) (ps' : List (String × UnixHTTPConnectionPool))
    (hg : lruGet url st.pools = some (p, ps')) :
    get_connection st url = (p, { st with pools := ps' }) := by
  simp only [get_connection, hg]

theorem get_connection_miss_full (st : AdapterState) (url k0 : String)
    (v0 : UnixHTTPConnectionPool) (rest : List (String × UnixHTTPConnectionPool))
    (hp : st.pools = (k0, v0) :: rest)
    (hg : lruGet url st.pools = none)
    (hfull : st.pools.length = st.pool_connections) :
    get_connection st url =
      (UnixHTTPConnectionPool.mk st.nextId url st.socket_path st.timeout st.max_pool_size,
       { st with
         pools := rest ++ [(url, UnixHTTPConnectionPool.mk st.nextId url st.socket_path
           st.timeout st.max_pool_size)]
         closed := v0 :: st.closed
         created := UnixHTTPConnectionPool.mk st.nextId url st.socket_path st.timeout
           st.max_pool_size :: st.created
         nextId := st.nextId + 1 }) := by
  have hlk := lruGet_none_lookup url st.pools hg
  have hset := lruSet_evict st.pool_connections url
    (UnixHTTPConnectionPool.mk st.nextId url st.socket_path st.timeout st.max_pool_size)
    k0 v0 rest (hp ▸ hlk) (hp ▸ hfull)
  simp only [get_connection, hg]
  rw [hp, hset]

theorem get_connection_miss_spare (st : AdapterState) (url : String)
    (hg : lruGet url st.pools = none)
    (hlt : st.pools.length < st.pool_connections) :
    get_connection st url =
      (UnixHTTPConnectionPool.mk st.nextId url st.socket_path st.timeout st.max_pool_size,
       { st with
         pools := st.pools ++ [(url, UnixHTTPConnectionPool.mk st.nextId url st.socket_path
           st.timeout st.max_pool_size)]
         created := UnixHTTPConnectionPool.mk st.nextId url st.socket_path st.timeout
           st.max_pool_size :: st.created
         nextId := st.nextId + 1 }) := by
  have hlk := lruGet_none_lookup url st.pools hg
  have hset := lruSet_append st.pool_connections url
    (UnixHTTPConnectionPool.mk st.nextId url st.socket_path st.timeout st.max_pool_size)
    st.pools hlk hlt
  simp only [get_connection, hg]
  rw [hset]

/-- Claim C3: the adapter's pool cache never exceeds `pool_connections`
entries, and inserting a fresh URL into a full cache evicts exactly the
least-recently-used pool, which the dispose hook deterministically closes
(it lands on the `closed` log) and which is no longer reachable in the
cache. -/
theorem pool_cache_bounded_lru_eviction :
    (∀ (st : AdapterState) (url : String),
      st.pools.length ≤ st.pool_connections →
      (get_connection st url).2.pools.length ≤ st.pool_connections) ∧
    (∀ (st : AdapterState) (url k0 : String) (v0 : UnixHTTPConnectionPool)
      (rest : List (String × UnixHTTPConnectionPool)),
      st.pools = (k0, v0) :: rest →
      lruGet url st.pools = none →
      st.pools.length = st.pool_connections →
      (st.pools.map Prod.fst).Nodup →
      (get_connection st url).2.pools.length = st.pool_connections ∧
      (get_connection st url).2.closed = v0 :: st.closed ∧
      (get_connection st url).2.pools.lookup k0 = none) := by
  constructor
  · intro st url hle
    rcases hg : lruGet url st.pools with _ | ⟨p, ps'⟩
    · by_cases hfull : st.pools.length = st.pool_connections
      · cases hp : st.pools with
        | nil =>
          have hlk := lruGet_none_lookup url st.pools hg
          have hzero : st.pool_connections = 0 := by
            rw [hp] at hfull
            simpa using hfull.symm
          have hlt : st.pool_connections
              < (st.pools ++ [(url, UnixHTTPConnectionPool.mk st.nextId url st.socket_path
                  st.timeout st.max_pool_size)]).length := by
            simp [hp, hzero]
          simp only [get_connection, hg]
          simp only [lruSet, hlk, Option.isSome_none, Bool.false_eq_true, if_false,
            if_pos hlt, hp, List.nil_append]
          simp [hzero]
        | cons kv rest =>
          obtain ⟨k0, v0⟩ := kv
          rw [get_connection_miss_full st url k0 v0 rest hp hg hfull]
          have : rest.length + 1 = st.pool_connections := by
            rw [hp] at hfull
            simpa using hfull
          simp only [List.length_append, List.length_singleton]
          omega
      · have hlt : st.pools.length < st.pool_connections :=
          lt_of_le_of_ne hle hfull
        rw [get_connection_miss_spare st url hg hlt]
        simp only [List.length_append, List.length_singleton]
        omega
    · rw [get_connection_hit st url p ps' hg]
      simpa [lruGet_some_length url st.pools ps' p hg] using hle
  · intro st url k0 v0 rest hp hg hfull hnd
    have hlk := lruGet_none_lookup url st.pools hg
    have hk0url : k0 ≠ url := by
      intro he
      rw [hp, he] at hlk
      simp [List.lookup] at hlk
    have hk0rest : rest.lookup k0 = none := by
      rw [hp] at hnd
      simp only [List.map_cons, List.nodup_cons] at hnd
      exact (lookup_eq_none_iff_not_mem_keys _ _).mpr hnd.1
    rw [get_connection_miss_full st url k0 v0 rest hp hg hfull]
    refine ⟨?_, rfl, ?_⟩
    · have : rest.length + 1 = st.pool_connections := by
        rw [hp] at hfull
        simpa using hfull
      simp only [List.length_append, List.length_singleton]
      omega
    · rw [lookup_append_of_left_none k0 rest _ hk0rest]
      simp [List.lookup, beq_false_of_ne hk0url]

/-- Witness for C3: a cache of capacity one holding pool `A`; requesting
`B` evicts and closes `A`'s pool. -/
theorem pool_cache_bounded_lru_eviction_witness :
    lruGet "B" [("A", UnixHTTPConnectionPool.mk 0 "A" "/s" 60 10)] = none ∧
    (get_connection
        (AdapterState.mk "/s" 60 10 1 [("A", UnixHTTPConnectionPool.mk 0 "A" "/s" 60 10)]
          [] [UnixHTTPConnectionPool.mk 0 "A" "/s" 60 10] 1) "B").2.closed
      = [UnixHTTPConnectionPool.mk 0 "A" "/s" 60 10] := by
  refine ⟨rfl, ?_⟩
  exact (pool_cache_bounded_lru_eviction.2
    (AdapterState.mk "/s" 60 10 1 [("A", UnixHTTPConnectionPool.mk 0 "A" "/s" 60 10)]
      [] [UnixHTTPConnectionPool.mk 0 "A" "/s" 60 10] 1)
    "B" "A" (UnixHTTPConnectionPool.mk 0 "A" "/s" 60 10) []
    rfl rfl rfl (by simp)).2.1

/-- After one `get_connection`, the requested URL sits at the
most-recently-used end of the cache, bound to the returned pool. -/
theorem get_connection_url_mru (st : AdapterState) (url : String)
    (hle : st.pools.length ≤ st.pool_connections)
    (hpos : 0 < st.pool_connections)
    (hnd : (st.pools.map Prod.fst).Nodup) :
    ∃ front, (get_connection st url).2.pools
        = front ++ [(url, (get_connection st url).1)] ∧
      front.lookup url = none := by
  rcases hg : lruGet url st.pools with _ | ⟨p, ps'⟩
  · have hlk := lruGet_none_lookup url st.pools hg
    by_cases hfull : st.pools.length = st.pool_connections
    · cases hp : st.pools with
      | nil =>
        rw [hp] at hfull
        simp at hfull
        omega
      | cons kv rest =>
        obtain ⟨k0, v0⟩ := kv
        rw [get_connection_miss_full st url k0 v0 rest hp hg hfull]
        refine ⟨rest, rfl, ?_⟩
        rw [hp] at hlk
        rw [lookup_eq_none_iff_not_mem_keys] at hlk ⊢
        intro hm
        exact hlk (by simp [hm])
    · have hlt : st.pools.length < st.pool_connections :=
        lt_of_le_of_ne hle hfull
      rw [get_connection_miss_spare st url hg hlt]
      exact ⟨st.pools, rfl, hlk⟩
  · obtain ⟨front, hf, hfl⟩ := lruGet_some_shape url st.pools ps' p hnd hg
    rw [get_connection_hit st url p ps' hg]
    exact ⟨front, by simpa using hf, hfl⟩

/-- Claim C6: `get_connection` is a lookup-or-create on the pool cache: a
cached pool is returned as is (nothing constructed, nothing closed); on a
miss a fresh `UnixHTTPConnectionPool` scoped to the adapter's
`socket_path`, `timeout` and `max_pool_size` is constructed and returned;
and a second call with the same URL returns the identical pool object
while constructing nothing — the source holds the container lock across
the whole lookup-and-insert body, so each call is one atomic step of the
adapter state and interleaved callers of the same URL can never construct
a second pool for it. -/
theorem get_connection_lookup_or_create :
    (∀ (st : AdapterState) (url : String) (p : UnixHTTPConnectionPool)
        (ps' : List (String × UnixHTTPConnectionPool)),
      lruGet url st.pools = some (p, ps') →
      (get_connection st url).1 = p ∧
      (get_connection st url).2.created = st.created ∧
      (get_connection st url).2.closed = st.closed ∧
      (get_connection st url).2.pools.length = st.pools.length) ∧
    (∀ (st : AdapterState) (url : String),
      lruGet url st.pools = none →
      (get_connection st url).1
        = UnixHTTPConnectionPool.mk st.nextId url st.socket_path st.timeout
            st.max_pool_size ∧
      (get_connection st url).2.created
        = UnixHTTPConnectionPool.mk st.nextId url st.socket_path st.timeout
            st.max_pool_size :: st.created) ∧
    (∀ (st : AdapterState) (url : String),
      st.pools.length ≤ st.pool_connections →
      0 < st.pool_connections →
      (st.pools.map Prod.fst).Nodup →
      (get_connection (get_connection st url).2 url).1 = (get_connection st url).1 ∧
      (get_connection (get_connection st url).2 url).2.created
        = (get_connection st url).2.created) := by
  refine ⟨?_, ?_, ?_⟩
  · intro st url p ps' hg
    rw [get_connection_hit st url p ps' hg]
    exact ⟨rfl, rfl, rfl, lruGet_some_length url st.pools ps' p hg⟩
  · intro st url hg
    constructor <;> simp [get_connection, hg]
  · intro st url hle hpos hnd
    obtain ⟨front, hf, hfl⟩ := get_connection_url_mru st url hle hpos hnd
    have hhit := lruGet_append_hit url front ((get_connection st url).1) hfl
    have hg2 : lruGet url (get_connection st url).2.pools
        = some ((get_connection st url).1, (get_connection st url).2.pools) := by
      rw [hf]
      exact hhit
    rw [get_connection_hit _ url _ _ hg2]
    exact ⟨rfl, rfl⟩

/-- Witness for C6: two successive requests for the same URL on a fresh
adapter state return the identical pool and construct it only once. -/
theorem get_connection_lookup_or_create_witness :
    ((AdapterState.init "http+unix:///var/run/docker.sock" 60 25 10).pools.length
        ≤ (AdapterState.init "http+unix:///var/run/docker.sock" 60 25 10).pool_connections) ∧
    (get_connection
        (get_connection (AdapterState.init "http+unix:///var/run/docker.sock" 60 25 10)
          "http+docker://localhost").2 "http+docker://localhost").1
      = (get_connection (AdapterState.init "http+unix:///var/run/docker.sock" 60 25 10)
          "http+docker://localhost").1 := by
  refine ⟨by simp [AdapterState.init], ?_⟩
  exact (get_connection_lookup_or_create.2.2
    (AdapterState.init "http+unix:///var/run/docker.sock" 60 25 10)
    "http+docker://localhost"
    (by simp [AdapterState.init]) (by simp [AdapterState.init])
    (by simp [AdapterState.init])).1

end DockerPy
